import Mathlib

/-!
Shallow embedding of the SQL safety pipeline of the nlp-to-sql repository:
the statement safety validator (validateSQLQuery in routes/query-routes.js),
the column security sanitizer (SecurityValidator in utils/security-validator.js),
the security configuration catalog (config/security-config.js), and the audit
logger (utils/audit-logger.js).

Strings are modeled as Lean strings; the regular expressions of the source are
small and are embedded as explicit matching functions with the exact
JavaScript backtracking semantics of each pattern (leftmost match, greedy or
lazy quantifiers as written, dot excluding line terminators).  Case mapping is
modeled for ASCII, which covers all keywords and catalog entries the source
matches against.
-/

namespace NlpToSql

/-- JavaScript whitespace class: the character set matched by the regex class
backslash-s and removed by String.prototype.trim. -/
def isJsWs (c : Char) : Bool :=
  c = ' ' || c = '\t' || c = '\n' || c = '\r' || c = '\x0b' || c = '\x0c' ||
  c = '\u00a0' || c = '\u1680' || ('\u2000' ≤ c && c ≤ '\u200a') ||
  c = '\u2028' || c = '\u2029' || c = '\u202f' || c = '\u205f' ||
  c = '\u3000' || c = '\ufeff'

/-- JavaScript line terminators: the characters NOT matched by the regex dot. -/
def isLineTerm (c : Char) : Bool :=
  c = '\n' || c = '\r' || c = '\u2028' || c = '\u2029'

/-- JavaScript word-character class used by regex backslash-w. -/
def isWordChar (c : Char) : Bool :=
  ('a' ≤ c && c ≤ 'z') || ('A' ≤ c && c ≤ 'Z') || ('0' ≤ c && c ≤ '9') || c = '_'

/-- ASCII lowercasing of a single character. -/
def lowerC (c : Char) : Char := c.toLower

/-- Exact (case-sensitive) list prefix test. -/
def prefixExact : List Char → List Char → Bool
  | [], _ => true
  | _ :: _, [] => false
  | p :: ps, c :: cs => p = c && prefixExact ps cs

/-- Case-insensitive (ASCII) list prefix test. -/
def prefixCI : List Char → List Char → Bool
  | [], _ => true
  | _ :: _, [] => false
  | p :: ps, c :: cs => lowerC p = lowerC c && prefixCI ps cs

/-- Length of the maximal run of JavaScript whitespace at the front. -/
def wsRunLen : List Char → Nat
  | [] => 0
  | c :: cs => if isJsWs c then wsRunLen cs + 1 else 0

/-- Length of the maximal run of word characters at the front. -/
def wordRunLen : List Char → Nat
  | [] => 0
  | c :: cs => if isWordChar c then wordRunLen cs + 1 else 0

/-- Suffix of the list right after the first (leftmost) exact occurrence of
pat, or none when pat does not occur. -/
def findAfter (pat : List Char) : List Char → Option (List Char)
  | [] => if prefixExact pat [] then some [] else none
  | s@(_ :: cs) =>
    if prefixExact pat s then some (s.drop pat.length) else findAfter pat cs

/-- Substring containment: pat occurs contiguously inside s. -/
def containsSub (s pat : List Char) : Bool := (findAfter pat s).isSome

/-- JavaScript String.prototype.trim. -/
def trimJs (s : String) : String :=
  String.mk (((s.data.dropWhile isJsWs).reverse.dropWhile isJsWs).reverse)

/-- JavaScript String.prototype.toUpperCase restricted to ASCII letters. -/
def toUpperAscii (s : String) : String := String.mk (s.data.map Char.toUpper)

/-- JavaScript String.prototype.toLowerCase restricted to ASCII letters. -/
def toLowerStr (s : String) : String := String.mk (s.data.map Char.toLower)

/-! Tokens of the small regex fragment used by the denylist of
validateSQLQuery: case-insensitive literals, one-or-more whitespace,
zero-or-more whitespace, zero-or-more non-line-terminator characters (the
dot-star), an optional literal, and a literal alternation. -/

inductive Tok where
  | lit : String → Tok
  | ws : Tok
  | wsStar : Tok
  | anyStar : Tok
  | opt : String → Tok
  | alt : List String → Tok
deriving Repr

/-- Fuel-driven matcher: whether the token list matches a prefix of the
character list (regex test semantics for a sequential pattern: existence of
any match is what counts, so backtracking order does not change the result).
Every step shrinks the sum of the list lengths, so any fuel above that sum is
enough and the wrapper below always supplies it. -/
def matchToksF : Nat → List Tok → List Char → Bool
  | 0, _, _ => false
  | _ + 1, [], _ => true
  | fuel + 1, Tok.lit w :: ts, cs => prefixCI w.data cs && matchToksF fuel ts (cs.drop w.length)
  | _ + 1, Tok.ws :: _, [] => false
  | fuel + 1, Tok.ws :: ts, c :: cs => isJsWs c && matchToksF fuel (Tok.wsStar :: ts) cs
  | fuel + 1, Tok.wsStar :: ts, [] => matchToksF fuel ts []
  | fuel + 1, Tok.wsStar :: ts, c :: cs =>
    matchToksF fuel ts (c :: cs) || (isJsWs c && matchToksF fuel (Tok.wsStar :: ts) cs)
  | fuel + 1, Tok.anyStar :: ts, [] => matchToksF fuel ts []
  | fuel + 1, Tok.anyStar :: ts, c :: cs =>
    matchToksF fuel ts (c :: cs) || (!isLineTerm c && matchToksF fuel (Tok.anyStar :: ts) cs)
  | fuel + 1, Tok.opt w :: ts, cs =>
    (prefixCI w.data cs && matchToksF fuel ts (cs.drop w.length)) || matchToksF fuel ts cs
  | fuel + 1, Tok.alt ws :: ts, cs =>
    ws.any (fun w => prefixCI w.data cs && matchToksF fuel ts (cs.drop w.length))

/-- Matcher entry point with sufficient fuel. -/
def matchToks (ts : List Tok) (cs : List Char) : Bool :=
  matchToksF (cs.length + ts.length + 1) ts cs

/-- Regex test semantics: the token list matches starting at some position. -/
def searchToks (ts : List Tok) : List Char → Bool
  | [] => matchToks ts []
  | s@(_ :: cs) => matchToks ts s || searchToks ts cs

/-- Whether a denylist pattern matches anywhere in the string. -/
def testToks (ts : List Tok) (s : String) : Bool := searchToks ts s.data

/-- The dangerousPatterns list of validateSQLQuery, in source order; each
entry pairs the JavaScript rendering of the regex literal (used in the
rejection reason) with its token form. -/
def dangerousPatterns : List (String × List Tok) :=
  [ ("/DROP\\s+(TABLE|DATABASE|SCHEMA|INDEX|VIEW)/i",
     [Tok.lit "DROP", Tok.ws, Tok.alt ["TABLE", "DATABASE", "SCHEMA", "INDEX", "VIEW"]]),
    ("/TRUNCATE\\s+TABLE/i", [Tok.lit "TRUNCATE", Tok.ws, Tok.lit "TABLE"]),
    ("/ALTER\\s+TABLE/i", [Tok.lit "ALTER", Tok.ws, Tok.lit "TABLE"]),
    ("/CREATE\\s+(TABLE|DATABASE|SCHEMA|INDEX)/i",
     [Tok.lit "CREATE", Tok.ws, Tok.alt ["TABLE", "DATABASE", "SCHEMA", "INDEX"]]),
    ("/GRANT\\s+/i", [Tok.lit "GRANT", Tok.ws]),
    ("/REVOKE\\s+/i", [Tok.lit "REVOKE", Tok.ws]),
    ("/EXEC(UTE)?\\s+/i", [Tok.lit "EXEC", Tok.opt "UTE", Tok.ws]),
    ("/UNION\\s+.*SELECT/i", [Tok.lit "UNION", Tok.ws, Tok.anyStar, Tok.lit "SELECT"]),
    ("/;\\s*DROP/i", [Tok.lit ";", Tok.wsStar, Tok.lit "DROP"]),
    ("/;\\s*DELETE/i", [Tok.lit ";", Tok.wsStar, Tok.lit "DELETE"]),
    ("/--/", [Tok.lit "--"]),
    ("/\\/\\*/", [Tok.lit "/*"]),
    ("/xp_cmdshell/i", [Tok.lit "xp_cmdshell"]),
    ("/sp_executesql/i", [Tok.lit "sp_executesql"]) ]

/-- Rejection reason produced when a denylisted pattern matches. -/
def dangerousReason (p : String) : String :=
  "Dangerous SQL pattern detected: " ++ p ++ ". Only SELECT queries are allowed for safety."

/-- The allow-set of leading read-only keywords. -/
def allowedKeywords : List String := ["SELECT", "SHOW", "DESCRIBE", "DESC", "EXPLAIN"]

/-- Result record of validateSQLQuery. -/
structure ValidationOutcome where
  safe : Bool
  reason : Option String
deriving DecidableEq, Repr

/-- Embedding of validateSQLQuery from routes/query-routes.js: first the
denylist, tested against the raw string in list order; then the allow-set,
tested anchored at the start of the uppercased trimmed string; then the
statement separator count. -/
def validateSQLQuery (sqlQuery : String) : ValidationOutcome :=
  match dangerousPatterns.find? (fun p => testToks p.2 sqlQuery) with
  | some p => { safe := false, reason := some (dangerousReason p.1) }
  | none =>
    let query := trimJs (toUpperAscii sqlQuery)
    if allowedKeywords.any (fun kw => matchToks [Tok.lit kw, Tok.ws] query.data) then
      if sqlQuery.data.count ';' > 0 then
        { safe := false, reason := some "Multiple SQL statements are not allowed." }
      else
        { safe := true, reason := none }
    else
      { safe := false,
        reason := some "Only SELECT, SHOW, DESCRIBE, and EXPLAIN queries are allowed for safety." }

/-! Embedding of the regex match of extractColumnsFromQuery, namely the
pattern SELECT backslash-s-plus lazy-group backslash-s-plus FROM with the
ignore-case flag.  The leading whitespace quantifier is greedy, the captured
group is lazy and its dot excludes line terminators, and the match is the
leftmost one; the functions below reproduce exactly that backtracking
order, since the chosen capture depends on it. -/

/-- Whether the tail pattern (one-or-more whitespace then FROM) can match at
the front of the list, for any split of the whitespace run. -/
def fromAfterWsAux (cs : List Char) : Bool :=
  prefixCI "FROM".data cs ||
    (match cs with
     | c :: cs2 => isJsWs c && fromAfterWsAux cs2
     | [] => false)

/-- Whether the lazy group may stop here: at least one whitespace character
followed, possibly after more whitespace, by FROM. -/
def canFinishSel (cs : List Char) : Bool :=
  match cs with
  | c :: cs2 => isJsWs c && fromAfterWsAux cs2
  | [] => false

/-- Lazy growth of the captured group: stop as soon as the tail pattern can
complete, fail on a line terminator or at the end of input. -/
def trySelGroup : List Char → Option (List Char)
  | [] => none
  | c :: cs =>
    if canFinishSel (c :: cs) then some []
    else if isLineTerm c then none
    else (trySelGroup cs).map (fun g => c :: g)

/-- Greedy backtracking over the length of the leading whitespace run: try
the longest split first, as the engine does. -/
def trySelDownFrom : Nat → List Char → Option (List Char)
  | 0, _ => none
  | w + 1, rest =>
    match trySelGroup (rest.drop (w + 1)) with
    | some g => some g
    | none => trySelDownFrom w rest

/-- Matching after the literal SELECT: one-or-more whitespace (greedy), then
the lazy captured group. -/
def trySelAfterWs (rest : List Char) : Option (List Char) :=
  trySelDownFrom (wsRunLen rest) rest

/-- Leftmost match of the whole pattern: the captured projection text
between SELECT and FROM, or none. -/
def extractSelectGroup : List Char → Option (List Char)
  | [] => none
  | c :: cs =>
    if prefixCI "SELECT".data (c :: cs) then
      match trySelAfterWs ((c :: cs).drop 6) with
      | some g => some g
      | none => extractSelectGroup cs
    else extractSelectGroup cs

/-! Embedding of the per-item cleanup steps of extractColumnsFromQuery. -/

/-- One match of the alias pattern (whitespace-plus, as, whitespace-plus,
word-plus, all runs maximal) at the front; returns the remainder after the
match. -/
def matchAsAliasAt (s : List Char) : Option (List Char) :=
  let w1 := wsRunLen s
  if w1 = 0 then none
  else
    let r1 := s.drop w1
    if prefixCI "as".data r1 then
      let r2 := r1.drop 2
      let w2 := wsRunLen r2
      if w2 = 0 then none
      else
        let r3 := r2.drop w2
        let w3 := wordRunLen r3
        if w3 = 0 then none else some (r3.drop w3)
    else none

/-- Global replacement of every alias match by the empty string, scanning
left to right and resuming after each match; the fuel is the input length,
which bounds the number of steps since every step consumes a character. -/
def stripAsAliasesAux : Nat → List Char → List Char
  | 0, s => s
  | _ + 1, [] => []
  | n + 1, c :: cs =>
    match matchAsAliasAt (c :: cs) with
    | some rest => stripAsAliasesAux n rest
    | none => c :: stripAsAliasesAux n cs

/-- The replace of the alias regex (global, ignore case) by the empty
string. -/
def stripAsAliases (s : List Char) : List Char := stripAsAliasesAux s.length s

/-- The replace of the anchored leading qualifier regex (word-plus then a
dot) by the empty string: strips one leading qualifier when present. -/
def stripLeadingQualifier (s : List Char) : List Char :=
  let w := wordRunLen s
  if w = 0 then s
  else
    match (s.drop w).head? with
    | some '.' => s.drop (w + 1)
    | _ => s

/-- The quoting characters removed by the quote-stripping replace: backtick,
double quote, single quote, and square brackets. -/
def isQuoteChar (c : Char) : Bool :=
  c = '`' || c = '"' || c = '\u0027' || c = '[' || c = ']'

/-- Global removal of every quoting character. -/
def removeQuoteChars (s : List Char) : List Char := s.filter (fun c => !(isQuoteChar c))

/-- Lazy scan of the function-call group: the inner argument up to the first
closing parenthesis, failing on a line terminator or at the end. -/
def lazyToParen : List Char → Option (List Char)
  | [] => none
  | c :: cs =>
    if c = ')' then some []
    else if isLineTerm c then none
    else (lazyToParen cs).map (fun g => c :: g)

/-- One attempt of the function-call pattern (word-plus, open parenthesis,
lazy group, close parenthesis) at the front. -/
def funcMatchAt (s : List Char) : Option (List Char) :=
  let w := wordRunLen s
  if w = 0 then none
  else
    match (s.drop w).head? with
    | some '(' => lazyToParen (s.drop (w + 1))
    | _ => none

/-- Leftmost match of the function-call pattern anywhere in the list,
returning the captured inner argument. -/
def funcInner : List Char → Option (List Char)
  | [] => none
  | c :: cs =>
    match funcMatchAt (c :: cs) with
    | some inner => some inner
    | none => funcInner cs

/-- Splitting on a separator character, with the JavaScript split semantics:
splitting the empty list yields one empty piece, and adjacent separators
yield empty pieces. -/
def splitOnCharAux (sep : Char) : List Char → List Char → List (List Char)
  | [], acc => [acc.reverse]
  | c :: cs, acc =>
    if c = sep then acc.reverse :: splitOnCharAux sep cs []
    else splitOnCharAux sep cs (c :: acc)

/-- Splitting a character list on a separator character. -/
def splitOnChar (sep : Char) (s : List Char) : List (List Char) :=
  splitOnCharAux sep s []

/-- Per-item cleanup of extractColumnsFromQuery: trim, strip aliases, strip
one leading table qualifier, strip quoting characters, then take the inner
argument of a function call when one matches. -/
def cleanColItem (col : String) : String :=
  let cleaned := removeQuoteChars (stripLeadingQualifier (stripAsAliases (trimJs col).data))
  match funcInner cleaned with
  | some inner => trimJs (String.mk inner)
  | none => String.mk cleaned

/-- Embedding of extractColumnsFromQuery from utils/security-validator.js:
capture the projection text between SELECT and FROM; when it contains a
star anywhere the result is the single wildcard marker; otherwise split on
commas, clean each item, and drop empty items and the noise items 1 and
DISTINCT. -/
def extractColumnsFromQuery (sqlQuery : String) : List String :=
  let columns :=
    match extractSelectGroup sqlQuery.data with
    | none => []
    | some grp =>
      if grp.contains '*' then ["*"]
      else (splitOnChar ',' grp).map (fun l => cleanColItem (String.mk l))
  columns.filter (fun col => col ≠ "" && col ≠ "1" && col ≠ "DISTINCT")

/-! Embedding of extractTableNameFromQuery: the pattern FROM,
whitespace-plus, an optional quote captured for a backreference, word-plus,
then the backreference, with the ignore-case flag; leftmost match wins. -/

/-- One attempt of the table-name pattern at the front of the list. -/
def tableMatchAt (s : List Char) : Option String :=
  if prefixCI "FROM".data s then
    let rest := s.drop 4
    let w := wsRunLen rest
    if w = 0 then none
    else
      let r2 := rest.drop w
      match r2 with
      | q :: r3 =>
        if q = '`' || q = '"' then
          let n := wordRunLen r3
          if n > 0 && (r3.drop n).head? = some q then some (String.mk (r3.take n)) else none
        else
          let n := wordRunLen r2
          if n > 0 then some (String.mk (r2.take n)) else none
      | [] => none
  else none

/-- Leftmost match of the table-name pattern anywhere in the list. -/
def tableSearch : List Char → Option String
  | [] => none
  | c :: cs =>
    match tableMatchAt (c :: cs) with
    | some t => some t
    | none => tableSearch cs

/-- Embedding of extractTableNameFromQuery from utils/security-validator.js. -/
def extractTableNameFromQuery (sqlQuery : String) : Option String :=
  tableSearch sqlQuery.data

/-! Embedding of extractSchemaColumnsForTable: find the block after the
header line naming the table (exact case), take its text lazily up to the
first blank line or the end, and parse each line with the column pattern. -/

/-- Lazy group of the schema block regex: all characters up to the first
occurrence of two consecutive newlines, or the whole rest when absent. -/
def lazyToDoubleNl : List Char → List Char
  | [] => []
  | c :: cs =>
    if prefixExact "\n\n".data (c :: cs) then [] else c :: lazyToDoubleNl cs

/-- One line of a schema block: optional whitespace, a dash, whitespace-plus,
the captured column name (word-plus), whitespace-plus, then an open
parenthesis. -/
def parseSchemaLine (line : List Char) : Option String :=
  let r1 := line.drop (wsRunLen line)
  match r1 with
  | '-' :: r2 =>
    let w1 := wsRunLen r2
    if w1 = 0 then none
    else
      let r3 := r2.drop w1
      let n := wordRunLen r3
      if n = 0 then none
      else
        let r4 := r3.drop n
        let w2 := wsRunLen r4
        if w2 = 0 then none
        else if (r4.drop w2).head? = some '(' then some (String.mk (r3.take n)) else none
  | _ => none

/-- Splitting a character list on the newline character. -/
def splitLines (s : List Char) : List (List Char) :=
  splitOnChar '\n' s

/-- Embedding of extractSchemaColumnsForTable from
utils/security-validator.js. -/
def extractSchemaColumnsForTable (schema tableName : String) : List String :=
  let header := ("Table: " ++ tableName ++ "\n").data
  match findAfter header schema.data with
  | none => []
  | some rest => (splitLines (lazyToDoubleNl rest)).filterMap parseSchemaLine

/-! Embedding of the security catalog from config/security-config.js. -/

/-- The blocked substring catalog columnSecurity.blocked, in source order. -/
def columnSecurityBlocked : List String :=
  [ "password", "password_hash", "hashed_password", "pwd", "passwd", "user_password",
    "credit_card", "card_number", "cvv", "card_cvv", "expiry", "card_expiry",
    "account_number", "routing_number", "bank_account",
    "ssn", "social_security", "social_security_number",
    "api_key", "secret_key", "private_key", "encryption_key",
    "token", "access_token", "refresh_token", "auth_token" ]

/-- The safeAlternatives mapping, in source order. -/
def safeAlternatives : List (String × String) :=
  [ ("password", "COUNT(*) as users_with_password"),
    ("password_hash", "COUNT(*) as users_count"),
    ("hashed_password", "COUNT(*) as users_count"),
    ("credit_card", "COUNT(DISTINCT LEFT(credit_card, 4)) as card_types_count"),
    ("card_number", "COUNT(*) as cards_count"),
    ("cvv", "COUNT(*) as records_with_cvv"),
    ("ssn", "COUNT(*) as records_with_ssn"),
    ("social_security", "COUNT(*) as records_with_ssn"),
    ("api_key", "COUNT(*) as active_api_keys"),
    ("secret_key", "COUNT(*) as secret_keys_count"),
    ("token", "COUNT(*) as active_tokens") ]

/-- Property lookup on the safeAlternatives object. -/
def lookupSafeAlternative (k : String) : Option String :=
  (safeAlternatives.find? (fun p => p.1 = k)).map Prod.snd

/-- Embedding of isSensitiveColumn: the lowercased column name contains some
lowercased catalog entry as a substring. -/
def isSensitiveColumn (columnName : String) : Bool :=
  columnSecurityBlocked.any (fun b => containsSub (toLowerStr columnName).data (toLowerStr b).data)

/-! Embedding of the projection rewrite: replace of the pattern SELECT,
space, lazy dot-star, space, FROM (ignore case) by the text SELECT, the
replacement, space, FROM; only the first (leftmost) match is replaced and
the string is returned unchanged when there is no match. -/

/-- Lazy scan for the closing literal (space then FROM): the minimal number
of non-line-terminator characters before it, or none. -/
def lazyToSpaceFrom : List Char → Option Nat
  | [] => none
  | c :: cs =>
    if prefixCI " FROM".data (c :: cs) then some 0
    else if isLineTerm c then none
    else (lazyToSpaceFrom cs).map (fun k => k + 1)

/-- Leftmost replacement of the SELECT-to-FROM span by the replacement
text, or none when the pattern does not match. -/
def replaceSelFromAux (repl : List Char) : List Char → Option (List Char)
  | [] => none
  | c :: cs =>
    if prefixCI "SELECT ".data (c :: cs) then
      match lazyToSpaceFrom ((c :: cs).drop 7) with
      | some k => some ("SELECT ".data ++ repl ++ " FROM".data ++ (c :: cs).drop (7 + k + 5))
      | none => (replaceSelFromAux repl cs).map (fun r => c :: r)
    else (replaceSelFromAux repl cs).map (fun r => c :: r)

/-- The replace call of sanitizeAndValidateQuery on strings. -/
def replaceSelectFrom (s repl : String) : String :=
  match replaceSelFromAux repl.data s.data with
  | some r => String.mk r
  | none => s

/-- One blocked-column record pushed by the classification loop. -/
structure BlockedColumn where
  column : String
  category : String
  reason : String
deriving DecidableEq, Repr

/-- One warning record. -/
structure Warning where
  message : String
deriving DecidableEq, Repr

/-- Result record of sanitizeAndValidateQuery. -/
structure SanitizationOutcome where
  sanitizedQuery : String
  blockedColumns : List BlockedColumn
  warnings : List Warning
deriving DecidableEq, Repr

/-- The blocked-column record built for one sensitive column. -/
def mkBlockedColumn (c : String) : BlockedColumn :=
  { column := c, category := "sensitive",
    reason := "Access to \u0027" ++ c ++ "\u0027 is blocked." }

/-- The warning message pushed when no table name can be determined. -/
def noTableWarning : String := "Could not determine table name to sanitize columns."

/-- The requested columns after the wildcard check: the schema columns of
the table when the extracted projection contains the wildcard marker, the
extracted columns otherwise. -/
def requestedColumnsOf (sqlQuery schema tableName : String) : List String :=
  let originalColumns := extractColumnsFromQuery sqlQuery
  if originalColumns.contains "*" then extractSchemaColumnsForTable schema tableName
  else originalColumns

/-- Embedding of sanitizeAndValidateQuery from utils/security-validator.js.
The classification loop partitions the requested columns, in encounter
order, into blocked and allowed ones; the rewrite branches follow the
source exactly. -/
def sanitizeAndValidateQuery (sqlQuery schema : String) : SanitizationOutcome :=
  match extractTableNameFromQuery sqlQuery with
  | none =>
    { sanitizedQuery := sqlQuery, blockedColumns := [],
      warnings := [{ message := noTableWarning }] }
  | some tableName =>
    let requestedColumns := requestedColumnsOf sqlQuery schema tableName
    let blocked := requestedColumns.filter (fun c => isSensitiveColumn c)
    let allowedColumns := requestedColumns.filter (fun c => !(isSensitiveColumn c))
    if blocked = [] then
      { sanitizedQuery := sqlQuery, blockedColumns := [], warnings := [] }
    else if allowedColumns = [] then
      let firstBlocked := blocked.headD ""
      let safeAlternative :=
        (lookupSafeAlternative (toLowerStr firstBlocked)).getD "COUNT(*) as record_count"
      { sanitizedQuery := replaceSelectFrom sqlQuery safeAlternative,
        blockedColumns := blocked.map mkBlockedColumn, warnings := [] }
    else
      let newColumns :=
        String.intercalate ", " (allowedColumns.map (fun c => "`" ++ c ++ "`"))
      { sanitizedQuery := replaceSelectFrom sqlQuery newColumns,
        blockedColumns := blocked.map mkBlockedColumn, warnings := [] }

/-! Embedding of the audit logger from utils/audit-logger.js.  The file
system is modeled as an explicit store of file names and line contents; the
wall clock enters as an explicit ISO timestamp argument.  A line of a log
file is modeled as the result of parsing it: some record when JSON.parse
yields an entry, none when the line is malformed. -/

/-- The UTC calendar date of an ISO timestamp: the segment before the T
separator, as computed by split. -/
def isoDatePart (timestamp : String) : String :=
  String.mk (timestamp.data.takeWhile (fun c => c ≠ 'T'))

/-- The daily partition name used by logQueryAttempt. -/
def auditLogFile (timestamp : String) : String :=
  "audit-" ++ isoDatePart timestamp ++ ".log"

/-- The daily partition name used by logSecurityViolation: a distinct
series reserved for security violations. -/
def securityViolationLogFile (timestamp : String) : String :=
  "security-violations-" ++ isoDatePart timestamp ++ ".log"

/-- The record appended by logSecurityViolation. -/
structure SecurityViolationEntry where
  timestamp : String
  severity : String
  userId : String
  attemptedQuery : String
  blockedColumns : List BlockedColumn
  reason : String
deriving DecidableEq, Repr

/-- Embedding of logSecurityViolation from utils/audit-logger.js: the entry
it serializes and appends to the security-violations partition of the day
of its timestamp. -/
def logSecurityViolationEntry (timestamp userId query reason : String)
    (blockedCols : List BlockedColumn) : SecurityViolationEntry :=
  { timestamp := timestamp, severity := "HIGH", userId := userId,
    attemptedQuery := query, blockedColumns := blockedCols, reason := reason }

/-- The two append-only partition series of the audit logger. -/
inductive LogStream where
  | audit : LogStream
  | securityViolations : LogStream
deriving DecidableEq, Repr

/-- One log write performed by the execute route: which partition series
receives the entry and the status field recorded in it. -/
structure PipelineLogWrite where
  stream : LogStream
  status : String
deriving DecidableEq, Repr

/-- Embedding of the audit-logging behavior of the execute route in
routes/query-routes.js: when validation rejects the statement, exactly one
blocked entry goes to the audit series; otherwise the statement is
sanitized and executed, and exactly one allowed or error entry goes to the
audit series, depending on the external execution outcome (modeled by the
execOk argument).  No code path of the route writes to the
security-violations series. -/
def executePipelineLogWrites (sqlQuery schema : String) (execOk : Bool) :
    List PipelineLogWrite :=
  if (validateSQLQuery sqlQuery).safe = false then
    [{ stream := LogStream.audit, status := "blocked" }]
  else if execOk then
    [{ stream := LogStream.audit, status := "allowed" }]
  else
    [{ stream := LogStream.audit, status := "error" }]

/-- One parsed audit record, with the fields getUserAuditLogs inspects. -/
structure AuditRec where
  userId : String
  timestamp : String
deriving DecidableEq, Repr

/-- Lexicographic comparison of character lists by code point, the order of
the default JavaScript array sort on ASCII file names. -/
def charListLe : List Char → List Char → Bool
  | [], _ => true
  | _ :: _, [] => false
  | a :: as, b :: bs => if a = b then charListLe as bs else decide (a < b)

/-- Insertion into a list sorted by charListLe. -/
def insertSorted (x : String) : List String → List String
  | [] => [x]
  | y :: ys => if charListLe x.data y.data then x :: y :: ys else y :: insertSorted x ys

/-- Sorting a list of strings, as the default JavaScript array sort does on
the directory listing. -/
def sortStrings (l : List String) : List String := l.foldr insertSorted []

/-- The partitions getUserAuditLogs scans: audit files only, sorted,
reversed, and truncated to the seven most recent. -/
def auditFilesOf (fileNames : List String) : List String :=
  (((sortStrings (fileNames.filter (fun f => prefixExact "audit-".data f.data))).reverse).take 7)

/-- The per-file collection loop of getUserAuditLogs: append the
well-formed entries of the current file whose userId matches, then stop
when at least limit entries have been collected, otherwise continue with
the next file. -/
def collectLogs (store : List (String × List (Option AuditRec))) (userId : String)
    (limit : Nat) : List String → List AuditRec → List AuditRec
  | [], acc => acc
  | name :: rest, acc =>
    let content := ((store.find? (fun p => p.1 = name)).map Prod.snd).getD []
    let newAcc := acc ++ (content.filterMap id).filter (fun e => e.userId = userId)
    if limit ≤ newAcc.length then newAcc
    else collectLogs store userId limit rest newAcc

/-- Embedding of getUserAuditLogs from utils/audit-logger.js over the
modeled file store. -/
def getUserAuditLogs (store : List (String × List (Option AuditRec)))
    (userId : String) (limit : Nat) : List AuditRec :=
  (collectLogs store userId limit (auditFilesOf (store.map Prod.fst)) []).take limit

/-- The demonstration store for the audit-preview properties: two daily
partitions, the newer one holding a malformed line and a line of another
user between two lines of the requested user. -/
def auditDemoStore : List (String × List (Option AuditRec)) :=
  [ ("audit-2026-10-09",
     [some { userId := "u1", timestamp := "2026-10-09T05:00:00.000Z" }]),
    ("audit-2026-10-10",
     [some { userId := "u1", timestamp := "2026-10-10T01:00:00.000Z" },
      none,
      some { userId := "u2", timestamp := "2026-10-10T01:30:00.000Z" },
      some { userId := "u1", timestamp := "2026-10-10T02:00:00.000Z" }]) ]

/-! Helper lemmas. -/

/-- A find with a first-match certificate returns exactly that element. -/
theorem list_find?_eq_some_of_first {α : Type} (p : α → Bool) :
    ∀ (l : List α) (i : Nat) (hi : i < l.length),
      p (l.get ⟨i, hi⟩) = true →
      (∀ j (hj : j < i), p (l.get ⟨j, Nat.lt_trans hj hi⟩) = false) →
      l.find? p = some (l.get ⟨i, hi⟩)
  | [], i, hi, _, _ => absurd hi (Nat.not_lt_zero i)
  | a :: l, 0, _, hp, _ => by simp only [List.get] at hp ⊢; simp [List.find?, hp]
  | a :: l, i + 1, hi, hp, hfirst => by
    have ha : p a = false := hfirst 0 (Nat.zero_lt_succ i)
    have ih := list_find?_eq_some_of_first p l i (Nat.lt_of_succ_lt_succ hi)
      hp (fun j hj => hfirst (j + 1) (Nat.succ_lt_succ hj))
    simp only [List.get] at hp ih ⊢
    simp [List.find?, ha, ih]

/-- Unfolding of the matcher at a literal token. -/
theorem matchToksF_lit (fuel : Nat) (w : String) (ts : List Tok) (cs : List Char) :
    matchToksF (fuel + 1) (Tok.lit w :: ts) cs
      = (prefixCI w.data cs && matchToksF fuel ts (cs.drop w.length)) := rfl

/-- A literal-headed pattern fails whenever the literal is not a prefix. -/
theorem matchToks_lit_eq_false (w : String) (ts : List Tok) (cs : List Char)
    (h : prefixCI w.data cs = false) : matchToks (Tok.lit w :: ts) cs = false := by
  have hlen : cs.length + (Tok.lit w :: ts).length + 1 = (cs.length + ts.length + 1) + 1 := by
    simp [List.length_cons]; omega
  rw [matchToks, hlen, matchToksF_lit, h]
  simp

/-- The exact prefix test agrees with the prefix order on lists. -/
theorem prefixExact_iff (p : List Char) :
    ∀ s : List Char, prefixExact p s = true ↔ p <+: s := by
  induction p with
  | nil => intro s; simp [prefixExact]
  | cons a ps ih =>
    intro s
    cases s with
    | nil =>
      simp only [prefixExact, Bool.false_eq_true, false_iff]
      intro h
      exact absurd (List.eq_nil_of_prefix_nil h) (by simp)
    | cons b bs =>
      simp [prefixExact, ih, List.cons_prefix_cons, Bool.and_eq_true, decide_eq_true_iff,
        and_comm]

/-- A prefix of a list is an infix of it. -/
theorem prefix_isInfix {p s : List Char} (h : p <+: s) : p <:+: s := by
  obtain ⟨t, ht⟩ := h
  exact ⟨[], t, by simpa using ht⟩

/-- The substring test agrees with the infix order on lists. -/
theorem containsSub_iff (pat : List Char) :
    ∀ s : List Char, containsSub s pat = true ↔ pat <:+: s := by
  intro s
  induction s with
  | nil =>
    simp only [containsSub, findAfter]
    by_cases hp : prefixExact pat [] = true
    · simp only [hp, if_true, Option.isSome_some, true_iff]
      exact prefix_isInfix ((prefixExact_iff pat []).mp hp)
    · simp only [hp, if_false, Option.isSome_none, Bool.false_eq_true, false_iff]
      intro h
      have : pat = [] := List.eq_nil_of_infix_nil h
      subst this
      exact hp rfl
  | cons c cs ih =>
    simp only [containsSub, findAfter]
    by_cases hp : prefixExact pat (c :: cs) = true
    · simp only [hp, if_true, Option.isSome_some, true_iff]
      exact prefix_isInfix ((prefixExact_iff pat (c :: cs)).mp hp)
    · rw [if_neg hp]
      rw [show ((findAfter pat cs).isSome = true) = (containsSub cs pat = true) from rfl, ih,
        List.infix_cons_iff]
      constructor
      · exact Or.inr
      · intro h
        cases h with
        | inl h => exact absurd ((prefixExact_iff pat (c :: cs)).mpr h) hp
        | inr h => exact h

/-- The denylist rejection reason is never the empty string. -/
theorem dangerousReason_ne_empty (p : String) : dangerousReason p ≠ "" := by
  intro h
  have hl : (dangerousReason p).length = 0 := by rw [h]; rfl
  rw [dangerousReason, String.length_append, String.length_append] at hl
  have h1 : ("Dangerous SQL pattern detected: " : String).length = 32 := rfl
  have h2 : (". Only SELECT queries are allowed for safety." : String).length = 45 := rfl
  omega

/-- The denylist rejection reason contains the matched pattern rendering. -/
theorem dangerousReason_contains (p : String) :
    containsSub (dangerousReason p).data p.data = true := by
  rw [containsSub_iff]
  refine ⟨"Dangerous SQL pattern detected: ".data,
          ". Only SELECT queries are allowed for safety.".data, ?_⟩
  simp [dangerousReason]

/-- C1: for every statement matching some denylisted pattern, with the first
matching pattern (in list order) identified, validateSQLQuery returns safe
false together with the non-empty reason naming exactly that pattern; the
denylist verdict is reached regardless of the allow-set and separator
checks. -/
theorem validate_denylist_first_match (s : String) (i : Nat)
    (hi : i < dangerousPatterns.length)
    (hmatch : testToks (dangerousPatterns.get ⟨i, hi⟩).2 s = true)
    (hfirst : ∀ j (hj : j < i),
      testToks (dangerousPatterns.get ⟨j, Nat.lt_trans hj hi⟩).2 s = false) :
    (validateSQLQuery s).safe = false ∧
    (validateSQLQuery s).reason = some (dangerousReason (dangerousPatterns.get ⟨i, hi⟩).1) ∧
    (validateSQLQuery s).reason ≠ some "" ∧
    containsSub (dangerousReason (dangerousPatterns.get ⟨i, hi⟩).1).data
      (dangerousPatterns.get ⟨i, hi⟩).1.data = true := by
  have hfind : dangerousPatterns.find? (fun p => testToks p.2 s)
      = some (dangerousPatterns.get ⟨i, hi⟩) :=
    list_find?_eq_some_of_first _ dangerousPatterns i hi hmatch hfirst
  refine ⟨?_, ?_, ?_, dangerousReason_contains _⟩
  · simp [validateSQLQuery, hfind]
  · simp [validateSQLQuery, hfind]
  · simp only [validateSQLQuery, hfind]
    intro h
    exact dangerousReason_ne_empty _ (Option.some.inj h)

/-- Witness for C1 at a concrete denylisted statement. -/
theorem validate_denylist_first_match_witness :
    (validateSQLQuery "DROP TABLE users").safe = false ∧
    (validateSQLQuery "DROP TABLE users").reason
      = some (dangerousReason "/DROP\\s+(TABLE|DATABASE|SCHEMA|INDEX|VIEW)/i") := by
  have h := validate_denylist_first_match "DROP TABLE users" 0 (by decide) (by decide)
    (fun j hj => absurd hj (Nat.not_lt_zero j))
  exact ⟨h.1, h.2.1⟩

/-- C5: a statement whose uppercased trimmed form does not begin with any of
the allow-set keywords is rejected, and a statement containing at least one
semicolon separator is rejected. -/
theorem validate_allowset_and_separator (s : String) :
    ((∀ kw ∈ allowedKeywords,
        prefixCI kw.data (trimJs (toUpperAscii s)).data = false) →
      (validateSQLQuery s).safe = false) ∧
    (';' ∈ s.data → (validateSQLQuery s).safe = false) := by
  constructor
  · intro h
    cases hfind : dangerousPatterns.find? (fun p => testToks p.2 s) with
    | some p => simp [validateSQLQuery, hfind]
    | none =>
      have hany : allowedKeywords.any
          (fun kw => matchToks [Tok.lit kw, Tok.ws] (trimJs (toUpperAscii s)).data) = false := by
        rw [List.any_eq_false]
        intro kw hkw
        simp [matchToks_lit_eq_false _ _ _ (h kw hkw)]
      simp [validateSQLQuery, hfind, hany]
  · intro hmem
    have hcount : 0 < s.data.count ';' := List.count_pos_iff.mpr hmem
    cases hfind : dangerousPatterns.find? (fun p => testToks p.2 s) with
    | some p => simp [validateSQLQuery, hfind]
    | none =>
      by_cases hany : allowedKeywords.any
          (fun kw => matchToks [Tok.lit kw, Tok.ws] (trimJs (toUpperAscii s)).data)
      · simp [validateSQLQuery, hfind, hany, hcount]
      · simp [validateSQLQuery, hfind, hany]

/-- Witness for C5: a non-allow-set statement and a semicolon-separated
batch of two individually safe SELECT statements, both rejected. -/
theorem validate_allowset_and_separator_witness :
    (validateSQLQuery "UPDATE x SET y=1").safe = false ∧
    (validateSQLQuery "SELECT a FROM t; SELECT b FROM u").safe = false := by
  exact ⟨(validate_allowset_and_separator "UPDATE x SET y=1").1 (by decide),
         (validate_allowset_and_separator "SELECT a FROM t; SELECT b FROM u").2 (by decide)⟩

/-- C2: a column is classified as blocked exactly when its lowercase form
contains some lowercased catalog entry as a substring; in particular the
column user_password_hash is blocked because it contains the entry
password; and the sanitizer accumulates the blocked columns in encounter
order, each with category sensitive and a reason naming the column. -/
theorem sensitive_column_substring :
    (∀ c : String, isSensitiveColumn c = true ↔
        ∃ b ∈ columnSecurityBlocked, (toLowerStr b).data <:+: (toLowerStr c).data) ∧
    isSensitiveColumn "user_password_hash" = true ∧
    "password".data <:+: (toLowerStr "user_password_hash").data ∧
    (∀ q schema t, extractTableNameFromQuery q = some t →
        (sanitizeAndValidateQuery q schema).blockedColumns =
          ((requestedColumnsOf q schema t).filter
            (fun c => isSensitiveColumn c)).map mkBlockedColumn) ∧
    (∀ c, mkBlockedColumn c =
        { column := c, category := "sensitive",
          reason := "Access to \u0027" ++ c ++ "\u0027 is blocked." }) := by
  refine ⟨?_, by decide, ⟨"user_".data, "_hash".data, by decide⟩, ?_, fun c => rfl⟩
  · intro c
    simp only [isSensitiveColumn, List.any_eq_true, containsSub_iff]
  · intro q schema t ht
    by_cases hb : (requestedColumnsOf q schema t).filter (fun c => isSensitiveColumn c) = []
    · simp [sanitizeAndValidateQuery, ht, hb]
    · by_cases ha : (requestedColumnsOf q schema t).filter (fun c => !(isSensitiveColumn c)) = []
      · simp [sanitizeAndValidateQuery, ht, hb, ha]
      · simp [sanitizeAndValidateQuery, ht, hb, ha]

/-- Witness for C2 at a concrete statement with one sensitive column. -/
theorem sensitive_column_substring_witness :
    isSensitiveColumn "user_password_hash" = true ∧
    (sanitizeAndValidateQuery "SELECT id, password FROM users" "").blockedColumns
      = [{ column := "password", category := "sensitive",
           reason := "Access to \u0027password\u0027 is blocked." }] := by
  have h := sensitive_column_substring
  refine ⟨h.2.1, ?_⟩
  have hb := h.2.2.2.1 "SELECT id, password FROM users" "" "users" (by decide)
  exact hb.trans (by decide)

/-- C6: when no table name can be extracted, the sanitizer is a fail-open
no-op: the statement is returned unchanged, no column is blocked, and
exactly one warning notes that column sanitization could not be applied. -/
theorem sanitize_fail_open_no_table (q schema : String)
    (h : extractTableNameFromQuery q = none) :
    sanitizeAndValidateQuery q schema =
      { sanitizedQuery := q, blockedColumns := [],
        warnings := [{ message := noTableWarning }] } := by
  simp [sanitizeAndValidateQuery, h]

/-- Witness for C6 at a statement without any FROM clause. -/
theorem sanitize_fail_open_no_table_witness :
    sanitizeAndValidateQuery "SHOW TABLES" "" =
      { sanitizedQuery := "SHOW TABLES", blockedColumns := [],
        warnings := [{ message := noTableWarning }] } :=
  sanitize_fail_open_no_table "SHOW TABLES" "" (by decide)

/-- C4 (amended): when no column is blocked the input statement is returned
byte for byte and sanitization is idempotent; when at least one column is
blocked, the projection-span rewrite is performed, though its textual
result may coincide with the input, so a non-empty blocked list does not
imply a changed statement. -/
theorem sanitize_no_blocked_identity (q schema : String) :
    ((sanitizeAndValidateQuery q schema).blockedColumns = [] →
      (sanitizeAndValidateQuery q schema).sanitizedQuery = q) ∧
    ((sanitizeAndValidateQuery q schema).blockedColumns = [] →
      sanitizeAndValidateQuery (sanitizeAndValidateQuery q schema).sanitizedQuery schema
        = sanitizeAndValidateQuery q schema) ∧
    ((sanitizeAndValidateQuery q schema).blockedColumns ≠ [] →
      ∃ repl, (sanitizeAndValidateQuery q schema).sanitizedQuery = replaceSelectFrom q repl) := by
  have unchanged : (sanitizeAndValidateQuery q schema).blockedColumns = [] →
      (sanitizeAndValidateQuery q schema).sanitizedQuery = q := by
    intro hempty
    cases ht : extractTableNameFromQuery q with
    | none => simp [sanitizeAndValidateQuery, ht]
    | some t =>
      by_cases hb : (requestedColumnsOf q schema t).filter (fun c => isSensitiveColumn c) = []
      · simp [sanitizeAndValidateQuery, ht, hb]
      · by_cases ha :
            (requestedColumnsOf q schema t).filter (fun c => !(isSensitiveColumn c)) = []
        · simp [sanitizeAndValidateQuery, ht, hb, ha] at hempty
        · simp [sanitizeAndValidateQuery, ht, hb, ha] at hempty
  refine ⟨unchanged, ?_, ?_⟩
  · intro hempty
    rw [unchanged hempty]
  · intro hnonempty
    cases ht : extractTableNameFromQuery q with
    | none => simp [sanitizeAndValidateQuery, ht] at hnonempty
    | some t =>
      by_cases hb : (requestedColumnsOf q schema t).filter (fun c => isSensitiveColumn c) = []
      · simp [sanitizeAndValidateQuery, ht, hb] at hnonempty
      · by_cases ha :
            (requestedColumnsOf q schema t).filter (fun c => !(isSensitiveColumn c)) = []
        · refine ⟨(lookupSafeAlternative (toLowerStr
              (((requestedColumnsOf q schema t).filter
                (fun c => isSensitiveColumn c)).headD ""))).getD "COUNT(*) as record_count", ?_⟩
          simp [sanitizeAndValidateQuery, ht, hb, ha]
        · refine ⟨String.intercalate ", "
              (((requestedColumnsOf q schema t).filter
                (fun c => !(isSensitiveColumn c))).map (fun c => "`" ++ c ++ "`")), ?_⟩
          simp [sanitizeAndValidateQuery, ht, hb, ha]

/-- Witness for C4 (amended) at a statement with no sensitive column. -/
theorem sanitize_no_blocked_identity_witness :
    (sanitizeAndValidateQuery "SELECT name, email FROM users" "").sanitizedQuery
      = "SELECT name, email FROM users" ∧
    sanitizeAndValidateQuery
        (sanitizeAndValidateQuery "SELECT name, email FROM users" "").sanitizedQuery ""
      = sanitizeAndValidateQuery "SELECT name, email FROM users" "" := by
  have h := sanitize_no_blocked_identity "SELECT name, email FROM users" ""
  exact ⟨h.1 (by decide), h.2.1 (by decide)⟩

/-- C4 (counterexample): a statement with a non-empty blocked list whose
sanitized output is byte for byte the input, because the substituted safe
alternative coincides with the original projection text; so an empty
blocked list is not equivalent to the output being unchanged. -/
theorem sanitize_rewrite_iff_counterexample :
    (sanitizeAndValidateQuery "SELECT COUNT(*) as active_tokens FROM t"
        "Table: t\n  - token (varchar)\n").blockedColumns = [mkBlockedColumn "token"] ∧
    (sanitizeAndValidateQuery "SELECT COUNT(*) as active_tokens FROM t"
        "Table: t\n  - token (varchar)\n").sanitizedQuery
      = "SELECT COUNT(*) as active_tokens FROM t" := by decide

/-- C3 (counterexample): with the first blocked column absent from the
safeAlternatives mapping, the generic fallback substituted by the code is
the expression with a lowercase as keyword, not the uppercase AS rendering
of the claim. -/
theorem sanitize_fallback_lowercase_counterexample :
    lookupSafeAlternative "passwd" = none ∧
    (sanitizeAndValidateQuery "SELECT passwd FROM users" "").blockedColumns
      = [mkBlockedColumn "passwd"] ∧
    (sanitizeAndValidateQuery "SELECT passwd FROM users" "").sanitizedQuery
      = "SELECT COUNT(*) as record_count FROM users" ∧
    (sanitizeAndValidateQuery "SELECT passwd FROM users" "").sanitizedQuery
      ≠ "SELECT COUNT(*) AS record_count FROM users" := by decide

/-- C3 (amended): when at least one column is blocked, the first
SELECT-to-FROM span of the statement is rewritten; all columns blocked
gives the safe alternative of the first blocked column with the generic
lowercase fallback COUNT(star) as record_count when the mapping has no
entry, and a partial block gives the comma-joined backtick-quoted allowed
columns in their original relative order, as on the example statement. -/
theorem sanitize_rewrite_branches (q schema t : String)
    (ht : extractTableNameFromQuery q = some t)
    (hb : (requestedColumnsOf q schema t).filter (fun c => isSensitiveColumn c) ≠ []) :
    ((requestedColumnsOf q schema t).filter (fun c => !(isSensitiveColumn c)) = [] →
      (sanitizeAndValidateQuery q schema).sanitizedQuery
        = replaceSelectFrom q
            ((lookupSafeAlternative (toLowerStr
                (((requestedColumnsOf q schema t).filter
                  (fun c => isSensitiveColumn c)).headD ""))).getD
              "COUNT(*) as record_count")) ∧
    ((requestedColumnsOf q schema t).filter (fun c => !(isSensitiveColumn c)) ≠ [] →
      (sanitizeAndValidateQuery q schema).sanitizedQuery
        = replaceSelectFrom q
            (String.intercalate ", "
              (((requestedColumnsOf q schema t).filter
                (fun c => !(isSensitiveColumn c))).map (fun c => "`" ++ c ++ "`")))) ∧
    sanitizeAndValidateQuery "SELECT id, password, email FROM users" ""
      = { sanitizedQuery := "SELECT `id`, `email` FROM users",
          blockedColumns := [mkBlockedColumn "password"], warnings := [] } := by
  refine ⟨?_, ?_, by decide⟩
  · intro ha
    simp [sanitizeAndValidateQuery, ht, hb, ha]
  · intro ha
    simp [sanitizeAndValidateQuery, ht, hb, ha]

/-- Witness for C3 (amended): an all-blocked statement rewritten to the safe
alternative of its first blocked column, and a partially blocked statement
rewritten to its quoted allowed columns. -/
theorem sanitize_rewrite_branches_witness :
    (sanitizeAndValidateQuery "SELECT password FROM users" "").sanitizedQuery
      = "SELECT COUNT(*) as users_with_password FROM users" ∧
    (sanitizeAndValidateQuery "SELECT id, password, email FROM users" "").sanitizedQuery
      = "SELECT `id`, `email` FROM users" := by
  have h1 := (sanitize_rewrite_branches "SELECT password FROM users" "" "users"
    (by decide) (by decide)).1 (by decide)
  have h2 := (sanitize_rewrite_branches "SELECT id, password, email FROM users" "" "users"
    (by decide) (by decide)).2.1 (by decide)
  exact ⟨h1.trans (by decide), h2.trans (by decide)⟩

/-- C7: wildcard expansion reads the column list of the identified table
from the schema resolver in declaration order; a missing table block yields
the empty sequence rather than an error; classification over that empty
set lets the statement pass through unchanged; and the accounts example
expands the star, blocks ssn, and keeps id and balance. -/
theorem sanitize_wildcard_expansion :
    (∀ schema t : String,
        containsSub schema.data ("Table: " ++ t ++ "\n").data = false →
        extractSchemaColumnsForTable schema t = []) ∧
    (∀ q schema t : String, extractTableNameFromQuery q = some t →
        (extractColumnsFromQuery q).contains "*" = true →
        requestedColumnsOf q schema t = extractSchemaColumnsForTable schema t) ∧
    (∀ q schema t : String, extractTableNameFromQuery q = some t →
        (extractColumnsFromQuery q).contains "*" = true →
        extractSchemaColumnsForTable schema t = [] →
        sanitizeAndValidateQuery q schema
          = { sanitizedQuery := q, blockedColumns := [], warnings := [] }) ∧
    sanitizeAndValidateQuery "SELECT * FROM accounts"
        "Table: accounts\n  - id (int)\n  - ssn (varchar)\n  - balance (decimal)\n"
      = { sanitizedQuery := "SELECT `id`, `balance` FROM accounts",
          blockedColumns := [mkBlockedColumn "ssn"], warnings := [] } := by
  have expand : ∀ q schema t : String, (extractColumnsFromQuery q).contains "*" = true →
      requestedColumnsOf q schema t = extractSchemaColumnsForTable schema t := by
    intro q schema t hstar
    have hmem : "*" ∈ extractColumnsFromQuery q := by simpa using hstar
    simp [requestedColumnsOf, hmem]
  refine ⟨?_, fun q schema t _ hstar => expand q schema t hstar, ?_, by decide⟩
  · intro schema t h
    have hnone : findAfter ("Table: " ++ t ++ "\n").data schema.data = none := by
      cases hf : findAfter ("Table: " ++ t ++ "\n").data schema.data with
      | none => rfl
      | some r =>
        have hs : containsSub schema.data ("Table: " ++ t ++ "\n").data = true := by
          simp only [containsSub, hf, Option.isSome_some]
        rw [hs] at h
        exact absurd h (by simp)
    simp only [extractSchemaColumnsForTable]
    rw [hnone]
  · intro q schema t ht hstar hempty
    have hreq : requestedColumnsOf q schema t = [] := (expand q schema t hstar).trans hempty
    simp [sanitizeAndValidateQuery, ht, hreq]

/-- Witness for C7: a wildcard statement over a schema without a block for
the table passes through unchanged with no blocked column. -/
theorem sanitize_wildcard_expansion_witness :
    extractSchemaColumnsForTable "" "accounts" = [] ∧
    sanitizeAndValidateQuery "SELECT * FROM accounts" ""
      = { sanitizedQuery := "SELECT * FROM accounts", blockedColumns := [], warnings := [] } := by
  have h := sanitize_wildcard_expansion
  exact ⟨h.1 "" "accounts" (by decide),
         h.2.2.1 "SELECT * FROM accounts" "" "accounts" (by decide) (by decide) (by decide)⟩

/-- C8: projection extraction splits the captured text on commas and cleans
each item by stripping an AS alias, a leading table qualifier, and quoting
characters, and by taking the inner argument of a function call; a
projection containing the star collapses to the wildcard marker without
splitting; and items equal to the empty string, 1, or DISTINCT are
discarded. -/
theorem extract_columns_cleanup :
    (∀ (q : String) (g : List Char), extractSelectGroup q.data = some g →
        g.contains '*' = true → extractColumnsFromQuery q = ["*"]) ∧
    (∀ (q : String) (g : List Char), extractSelectGroup q.data = some g →
        g.contains '*' = false →
        extractColumnsFromQuery q
          = (((splitOnChar ',' g).map (fun l => cleanColItem (String.mk l))).filter
              (fun col => col ≠ "" && col ≠ "1" && col ≠ "DISTINCT"))) ∧
    cleanColItem "price AS total_price" = "price" ∧
    cleanColItem "users.name" = "name" ∧
    cleanColItem "`email`" = "email" ∧
    cleanColItem "COUNT(id)" = "id" ∧
    extractColumnsFromQuery "SELECT 1 FROM t" = [] ∧
    extractColumnsFromQuery "SELECT DISTINCT, name FROM t" = ["name"] := by
  refine ⟨?_, ?_, by decide, by decide, by decide, by decide, by decide, by decide⟩
  · intro q g hg hstar
    have hmem : '*' ∈ g := by simpa using hstar
    simp [extractColumnsFromQuery, hg, hmem]
  · intro q g hg hstar
    have hmem : '*' ∉ g := by simpa using hstar
    simp [extractColumnsFromQuery, hg, hmem]

/-- Witness for C8 at concrete projections with and without the wildcard. -/
theorem extract_columns_cleanup_witness :
    extractColumnsFromQuery "SELECT * FROM t" = ["*"] ∧
    extractColumnsFromQuery "SELECT a, b FROM t"
      = ((splitOnChar ',' "a, b".data).map (fun l => cleanColItem (String.mk l))).filter
          (fun col => col ≠ "" && col ≠ "1" && col ≠ "DISTINCT") := by
  have h := extract_columns_cleanup
  exact ⟨h.1 "SELECT * FROM t" "*".data (by decide) (by decide),
         h.2.1 "SELECT a, b FROM t" "a, b".data (by decide) (by decide)⟩

/-- C9 (counterexample): a pipeline run whose sanitization identifies a
blocked sensitive column writes only to the general audit series; no write
to the security-violations series is performed on any outcome of the
external execution. -/
theorem security_violation_never_logged_counterexample :
    (sanitizeAndValidateQuery "SELECT password FROM users" "").blockedColumns
      = [mkBlockedColumn "password"] ∧
    (validateSQLQuery "SELECT password FROM users").safe = true ∧
    (executePipelineLogWrites "SELECT password FROM users" "" true).map PipelineLogWrite.stream
      = [LogStream.audit] ∧
    (executePipelineLogWrites "SELECT password FROM users" "" false).map PipelineLogWrite.stream
      = [LogStream.audit] := by decide

/-- C9 (amended): the logSecurityViolation path does produce a severity HIGH
entry destined for the distinct security-violations partition of the day of
its timestamp, but the execute route never invokes it: every pipeline run
writes exactly one entry, to the general audit series only. -/
theorem security_violation_path_unused (timestamp userId q reason schema : String)
    (bc : List BlockedColumn) (execOk : Bool) :
    (logSecurityViolationEntry timestamp userId q reason bc).severity = "HIGH" ∧
    securityViolationLogFile timestamp
      = "security-violations-" ++ isoDatePart timestamp ++ ".log" ∧
    securityViolationLogFile timestamp ≠ auditLogFile timestamp ∧
    (executePipelineLogWrites q schema execOk).map PipelineLogWrite.stream
      = [LogStream.audit] := by
  refine ⟨rfl, rfl, ?_, ?_⟩
  · intro h
    have hl := congrArg String.length h
    simp only [securityViolationLogFile, auditLogFile, String.length_append] at hl
    have h1 : ("security-violations-" : String).length = 20 := rfl
    have h2 : ("audit-" : String).length = 6 := rfl
    omega
  · by_cases hv : (validateSQLQuery q).safe = false
    · simp [executePipelineLogWrites, hv]
    · by_cases he : execOk
      · simp [executePipelineLogWrites, hv, he]
      · simp [executePipelineLogWrites, hv, he]

/-- Witness for C9 (amended) at a concrete violation entry and timestamp. -/
theorem security_violation_path_unused_witness :
    (logSecurityViolationEntry "2026-10-10T12:00:00.000Z" "u1" "SELECT password FROM users"
        "Sensitive columns blocked" [mkBlockedColumn "password"]).severity = "HIGH" ∧
    securityViolationLogFile "2026-10-10T12:00:00.000Z"
      = "security-violations-2026-10-10.log" ∧
    securityViolationLogFile "2026-10-10T12:00:00.000Z"
      ≠ auditLogFile "2026-10-10T12:00:00.000Z" := by
  have h := security_violation_path_unused "2026-10-10T12:00:00.000Z" "u1"
    "SELECT password FROM users" "Sensitive columns blocked" ""
    [mkBlockedColumn "password"] true
  exact ⟨h.1, h.2.1.trans (by decide), h.2.2.1⟩

/-- An entry collected by the audit scan either was already in the
accumulator or carries the requested user identity. -/
theorem collectLogs_mem (store : List (String × List (Option AuditRec))) (u : String)
    (n : Nat) :
    ∀ (names : List String) (acc : List AuditRec) (e : AuditRec),
      e ∈ collectLogs store u n names acc → e ∈ acc ∨ e.userId = u := by
  intro names
  induction names with
  | nil => intro acc e he; exact Or.inl he
  | cons name rest ih =>
    intro acc e he
    simp only [collectLogs] at he
    have hsplit : ∀ x : AuditRec,
        x ∈ acc ++ ((((store.find? (fun p => p.1 = name)).map Prod.snd).getD
            []).filterMap id).filter (fun r => r.userId = u) →
        x ∈ acc ∨ x.userId = u := by
      intro x hx
      rcases List.mem_append.mp hx with hxa | hxf
      · exact Or.inl hxa
      · exact Or.inr (of_decide_eq_true (List.mem_filter.mp hxf).2)
    split at he
    · exact hsplit e he
    · rcases ih _ e he with hin | hu
      · exact hsplit e hin
      · exact Or.inr hu

/-- C10 (amended): the audit query scans at most the seven newest audit
partitions, silently skips malformed lines, keeps only entries of the
requested user, and returns at most limit entries scanning the newest
partition first; within one partition the entries keep their append order,
oldest first, as the demonstration shows, and the older partition is not
reached once the limit is met. -/
theorem audit_query_bounds (store : List (String × List (Option AuditRec)))
    (u : String) (n : Nat) :
    (getUserAuditLogs store u n).length ≤ n ∧
    (∀ e ∈ getUserAuditLogs store u n, e.userId = u) ∧
    (auditFilesOf (store.map Prod.fst)).length ≤ 7 ∧
    getUserAuditLogs auditDemoStore "u1" 2
      = [{ userId := "u1", timestamp := "2026-10-10T01:00:00.000Z" },
         { userId := "u1", timestamp := "2026-10-10T02:00:00.000Z" }] ∧
    getUserAuditLogs auditDemoStore "u1" 50
      = [{ userId := "u1", timestamp := "2026-10-10T01:00:00.000Z" },
         { userId := "u1", timestamp := "2026-10-10T02:00:00.000Z" },
         { userId := "u1", timestamp := "2026-10-09T05:00:00.000Z" }] := by
  refine ⟨?_, ?_, ?_, by decide, by decide⟩
  · simp only [getUserAuditLogs]
    rw [List.length_take]
    exact Nat.min_le_left _ _
  · intro e he
    have hmem : e ∈ collectLogs store u n (auditFilesOf (store.map Prod.fst)) [] := by
      simp only [getUserAuditLogs] at he
      exact List.take_subset _ _ he
    rcases collectLogs_mem store u n _ [] e hmem with hin | hu
    · exact absurd hin (List.not_mem_nil e)
    · exact hu
  · simp only [auditFilesOf]
    rw [List.length_take]
    exact Nat.min_le_left _ _

/-- Witness for C10 (amended) at the demonstration store. -/
theorem audit_query_bounds_witness :
    (getUserAuditLogs auditDemoStore "u1" 2).length ≤ 2 ∧
    getUserAuditLogs auditDemoStore "u1" 2
      = [{ userId := "u1", timestamp := "2026-10-10T01:00:00.000Z" },
         { userId := "u1", timestamp := "2026-10-10T02:00:00.000Z" }] := by
  have h := audit_query_bounds auditDemoStore "u1" 2
  exact ⟨h.1, h.2.2.2.1⟩

/-- C10 (counterexample): within one daily partition the returned entries
appear in append order, so the first returned entry is strictly older than
the second and the sequence is not ordered most recent first. -/
theorem audit_query_order_counterexample :
    getUserAuditLogs
      [("audit-2026-10-10",
        [some { userId := "u1", timestamp := "2026-10-10T01:00:00.000Z" },
         some { userId := "u1", timestamp := "2026-10-10T02:00:00.000Z" }])]
      "u1" 50
    = [{ userId := "u1", timestamp := "2026-10-10T01:00:00.000Z" },
       { userId := "u1", timestamp := "2026-10-10T02:00:00.000Z" }] ∧
    charListLe "2026-10-10T01:00:00.000Z".data "2026-10-10T02:00:00.000Z".data = true ∧
    ("2026-10-10T01:00:00.000Z" : String) ≠ "2026-10-10T02:00:00.000Z" := by decide

end NlpToSql
